import Mathlib

/-!
Verification of the sky-filtering core of `sky_filter.py`.

The program has two core operations:
* `make_sky_filter` (the spec calls it `classify_sky`): converts an RGB image
  to HSV, builds five boolean threshold masks, ANDs them, and multiplies each
  RGB channel by the mask, zeroing every non-sky pixel.
* `filter_image` (the spec calls it `whiten_sky`): computes the sky-filtered
  image, flags every pixel whose filtered value has all three channels
  non-zero (`np.all(sky_filter != [0,0,0], axis=2)`), copies the input image
  and overwrites the flagged pixels with (255,255,255).

Pixels are 8-bit RGB samples (natural numbers, valid when ≤ 255).  The HSV
conversion is skimage's `rgb2hsv`: divide by 255, value = max channel,
saturation = (max-min)/max (0 when max = min), hue from the three-branch
max-channel formula folded by `% 1.0`; real arithmetic is modelled exactly
with rationals.
-/

structure Pixel where
  r : Nat
  g : Nat
  b : Nat
deriving DecidableEq

/-- An image is a 2D grid of pixels (rows of pixels); the third axis of the
numpy tensor is the `Pixel` record, so the channel count 3 is structural. -/
abbrev Image := List (List Pixel)

/-- `img_as_float` on a `uint8` sample: divide by 255. -/
def toUnit (n : Nat) : ℚ := (n : ℚ) / 255

/-- `arr.max(-1)`: the value channel of the HSV conversion. -/
def vOf (p : Pixel) : ℚ := max (toUnit p.r) (max (toUnit p.g) (toUnit p.b))

/-- The minimum channel, used for `arr.ptp(-1)`. -/
def mnOf (p : Pixel) : ℚ := min (toUnit p.r) (min (toUnit p.g) (toUnit p.b))

/-- `delta = arr.ptp(-1) = max - min`. -/
def dOf (p : Pixel) : ℚ := vOf p - mnOf p

/-- `out_s = delta / out_v`, forced to 0 where `delta == 0`. -/
def sOf (p : Pixel) : ℚ := if dOf p = 0 then 0 else dOf p / vOf p

/-- The unscaled hue: skimage writes the red-max branch, then overwrites with
the green-max branch, then with the blue-max branch, so on ties the later
branch wins (blue, then green, then red). -/
def hRaw (p : Pixel) : ℚ :=
  if toUnit p.b = vOf p then 4 + (toUnit p.r - toUnit p.g) / dOf p
  else if toUnit p.g = vOf p then 2 + (toUnit p.b - toUnit p.r) / dOf p
  else (toUnit p.g - toUnit p.b) / dOf p

/-- `out_h = (out_h / 6.0) % 1.0`, forced to 0 where `delta == 0`;
numpy's `%` with a positive modulus is the fractional part. -/
def hOf (p : Pixel) : ℚ := if dOf p = 0 then 0 else hRaw p / 6 - ⌊hRaw p / 6⌋

/-- skimage `rgb2hsv`, per pixel: the (hue, saturation, value) triple. -/
def rgb2hsv (p : Pixel) : ℚ × ℚ × ℚ := (hOf p, sOf p, vOf p)

def hueOf (p : Pixel) : ℚ := (rgb2hsv p).1
def satOf (p : Pixel) : ℚ := (rgb2hsv p).2.1
def valOf (p : Pixel) : ℚ := (rgb2hsv p).2.2

/-- `lower_mask = image_hsv[:,:,0] > 0.45`, per pixel. -/
def lower_mask (p : Pixel) : Bool := decide (hueOf p > 45/100)

/-- `upper_mask = image_hsv[:,:,0] < 0.75`, per pixel. -/
def upper_mask (p : Pixel) : Bool := decide (hueOf p < 75/100)

/-- `lower_saturation_mask = image_hsv[:,:,1] > 0.20`, per pixel. -/
def lower_saturation_mask (p : Pixel) : Bool := decide (satOf p > 20/100)

/-- `upper_saturation_mask = image_hsv[:,:,1] < 0.90`, per pixel. -/
def upper_saturation_mask (p : Pixel) : Bool := decide (satOf p < 90/100)

/-- `value_mask = image_hsv[:,:,2] > 0.25`, per pixel. -/
def value_mask (p : Pixel) : Bool := decide (valOf p > 25/100)

/-- `mask = lower_mask * upper_mask * lower_saturation_mask *
upper_saturation_mask * value_mask`: the product of numpy boolean grids is
their conjunction. -/
def mask (p : Pixel) : Bool :=
  lower_mask p && upper_mask p && lower_saturation_mask p &&
    upper_saturation_mask p && value_mask p

/-- `image[:,:,c] * mask`: a `uint8` sample times a boolean is the sample or 0. -/
def maskPixel (p : Pixel) (m : Bool) : Pixel :=
  ⟨p.r * (if m then 1 else 0), p.g * (if m then 1 else 0), p.b * (if m then 1 else 0)⟩

/-- One pixel of the `np.dstack` of the three masked channels. -/
def skyFilterPixel (p : Pixel) : Pixel := maskPixel p (mask p)

/-- `make_sky_filter`: mask every pixel of the image. -/
def make_sky_filter (I : Image) : Image :=
  I.map (fun row => row.map skyFilterPixel)

def whitePixel : Pixel := ⟨255, 255, 255⟩

/-- One pixel of `image_copy[masked_pixels] = (255,255,255)`: the pixel is
flagged by `np.all(sky_filter != [0,0,0], axis=2)` exactly when all three
channels of its sky-filtered value are non-zero. -/
def compositePixel (orig sf : Pixel) : Pixel :=
  if sf.r ≠ 0 ∧ sf.g ≠ 0 ∧ sf.b ≠ 0 then whitePixel else orig

/-- `filter_image`: compute the sky filter, copy the image, and overwrite the
flagged pixels with white; the copy and the filter are aligned pointwise. -/
def filter_image (I : Image) : Image :=
  List.zipWith (fun ro rs => List.zipWith compositePixel ro rs) I (make_sky_filter I)

/-- The spec's classification predicate, written from the spec's words:
H ∈ (0.45, 0.75), S ∈ (0.20, 0.90), V > 0.25, all strict, ANDed. -/
def SkyPred (p : Pixel) : Prop :=
  45/100 < hueOf p ∧ hueOf p < 75/100 ∧ 20/100 < satOf p ∧
    satOf p < 90/100 ∧ 25/100 < valOf p

instance (p : Pixel) : Decidable (SkyPred p) := by
  unfold SkyPred; infer_instance

/-- A valid RGB image: every sample is an 8-bit intensity. -/
def ValidImage (I : Image) : Prop :=
  ∀ row ∈ I, ∀ p ∈ row, p.r ≤ 255 ∧ p.g ≤ 255 ∧ p.b ≤ 255

instance (I : Image) : Decidable (ValidImage I) := by
  unfold ValidImage; infer_instance

/-- The pixel at row `i`, column `j`, if in bounds. -/
def pixAt (I : Image) (i j : Nat) : Option Pixel :=
  (I[i]?).bind (fun row => row[j]?)

/-- The per-pixel action of `filter_image`: composite the pixel against its
own sky-filtered value.  `filter_image` is this map applied pointwise. -/
def whitenPixel (p : Pixel) : Pixel := compositePixel p (skyFilterPixel p)

/-! Heap model for the buffer discipline of `filter_image`.

`filter_image` reads its input buffer, allocates a fresh buffer holding
`image.copy()`, performs the masked white write in place on that copy, and
returns the copy's address.  A heap is a list of image buffers addressed by
index; allocation appends. -/

/-- The three buffer-level steps of `filter_image` on a heap: read the input
at address `a`, allocate the copy, overwrite the flagged pixels of the copy
in place; returns the updated heap and the address of the result. -/
def runFilterImageHeap (h : List Image) (a : Nat) : List Image × Nat :=
  match h[a]? with
  | none => (h, a)
  | some img => ((h ++ [img]).set h.length (filter_image img), h.length)

/-! Helper lemmas about the HSV conversion and classification. -/

lemma satOf_eq (p : Pixel) : satOf p = sOf p := rfl

lemma valOf_eq (p : Pixel) : valOf p = vOf p := rfl

lemma toUnit_zero : toUnit 0 = 0 := by
  simp [toUnit]

lemma toUnit_255 : toUnit 255 = 1 := by
  norm_num [toUnit]

lemma valOf_black : valOf (⟨0, 0, 0⟩ : Pixel) = 0 := by
  simp [valOf_eq, vOf, toUnit_zero]

lemma satOf_black : satOf (⟨0, 0, 0⟩ : Pixel) = 0 := by
  simp [satOf_eq, sOf, dOf, vOf, mnOf, toUnit_zero]

lemma not_skyPred_black : ¬ SkyPred (⟨0, 0, 0⟩ : Pixel) := by
  intro hs
  have h5 := hs.2.2.2.2
  rw [valOf_black] at h5
  norm_num at h5

lemma satOf_white : satOf whitePixel = 0 := by
  simp [whitePixel, satOf_eq, sOf, dOf, vOf, mnOf, toUnit_255]

lemma not_skyPred_white : ¬ SkyPred whitePixel := by
  intro hs
  have h3 := hs.2.2.1
  rw [satOf_white] at h3
  norm_num at h3

/-- The saturation and value bounds force every channel of a sky pixel to be
strictly positive: `S < 0.9` means `min > max/10`, and `V > 0.25` means
`max > 1/4`, so `min > 1/40 > 0`. -/
lemma skyPred_pos {p : Pixel} (hs : SkyPred p) : 0 < p.r ∧ 0 < p.g ∧ 0 < p.b := by
  have h3 : 20/100 < satOf p := hs.2.2.1
  have h4 : satOf p < 90/100 := hs.2.2.2.1
  have h5 : (25/100 : ℚ) < vOf p := hs.2.2.2.2
  rw [satOf_eq] at h3 h4
  have hv : (0:ℚ) < vOf p := lt_trans (by norm_num) h5
  by_cases hd : dOf p = 0
  · rw [sOf, if_pos hd] at h3
    norm_num at h3
  · rw [sOf, if_neg hd] at h4
    have hdlt : dOf p < 9/10 * vOf p := by
      have := (div_lt_iff₀ hv).mp h4
      linarith
    have hmn : vOf p / 10 < mnOf p := by
      rw [dOf] at hdlt
      linarith
    have hmnpos : (0:ℚ) < mnOf p := lt_trans (by positivity) hmn
    have hr : (0:ℚ) < toUnit p.r := lt_of_lt_of_le hmnpos (min_le_left _ _)
    have hg : (0:ℚ) < toUnit p.g :=
      lt_of_lt_of_le hmnpos (le_trans (min_le_right _ _) (min_le_left _ _))
    have hb : (0:ℚ) < toUnit p.b :=
      lt_of_lt_of_le hmnpos (le_trans (min_le_right _ _) (min_le_right _ _))
    refine ⟨?_, ?_, ?_⟩
    all_goals
      rw [toUnit] at *
      first
      | exact Nat.pos_of_ne_zero (by
          intro h0
          rw [h0] at hr
          norm_num at hr)
      | exact Nat.pos_of_ne_zero (by
          intro h0
          rw [h0] at hg
          norm_num at hg)
      | exact Nat.pos_of_ne_zero (by
          intro h0
          rw [h0] at hb
          norm_num at hb)

/-- The numpy boolean mask agrees with the spec's predicate. -/
lemma mask_iff (p : Pixel) : mask p = true ↔ SkyPred p := by
  simp only [mask, lower_mask, upper_mask, lower_saturation_mask,
    upper_saturation_mask, value_mask, SkyPred, Bool.and_eq_true,
    decide_eq_true_eq]
  tauto

/-- The masked pixel is the original on sky pixels and black elsewhere. -/
lemma skyFilterPixel_eq (p : Pixel) :
    skyFilterPixel p = if SkyPred p then p else (⟨0, 0, 0⟩ : Pixel) := by
  by_cases hs : SkyPred p
  · have hm : mask p = true := (mask_iff p).mpr hs
    simp [skyFilterPixel, maskPixel, hm, hs]
  · have hm : mask p = false := by
      rcases Bool.eq_false_or_eq_true (mask p) with h | h
      · exact absurd ((mask_iff p).mp h) hs
      · exact h
    simp [skyFilterPixel, maskPixel, hm, hs]

/-- The per-pixel compositor whitens exactly the sky pixels. -/
lemma whitenPixel_eq (p : Pixel) :
    whitenPixel p = if SkyPred p then whitePixel else p := by
  by_cases hs : SkyPred p
  · obtain ⟨hr, hg, hb⟩ := skyPred_pos hs
    rw [whitenPixel, skyFilterPixel_eq, if_pos hs, if_pos hs]
    rw [compositePixel, if_pos ⟨by omega, by omega, by omega⟩]
  · rw [whitenPixel, skyFilterPixel_eq, if_neg hs, if_neg hs]
    simp [compositePixel]

lemma whitenPixel_idem (p : Pixel) : whitenPixel (whitenPixel p) = whitenPixel p := by
  by_cases hs : SkyPred p
  · rw [whitenPixel_eq p, if_pos hs, whitenPixel_eq, if_neg not_skyPred_white]
  · rw [whitenPixel_eq p, if_neg hs, whitenPixel_eq, if_neg hs]

/-! Image-level helper lemmas. -/

lemma zipWith_composite_row (row : List Pixel) :
    List.zipWith compositePixel row (row.map skyFilterPixel) =
      row.map whitenPixel := by
  induction row with
  | nil => rfl
  | cons p t ih => simp [ih, whitenPixel]

/-- `filter_image` acts pointwise as `whitenPixel`. -/
lemma filter_image_eq_map (I : Image) :
    filter_image I = I.map (fun row => row.map whitenPixel) := by
  rw [filter_image, make_sky_filter]
  induction I with
  | nil => rfl
  | cons row t ih => simp [ih, zipWith_composite_row]

lemma pixAt_map (f : Pixel → Pixel) (I : Image) (i j : Nat) :
    pixAt (I.map (fun row => row.map f)) i j = (pixAt I i j).map f := by
  rw [pixAt, pixAt, List.getElem?_map]
  cases I[i]? with
  | none => rfl
  | some row => simp [List.getElem?_map]

/-! Claim theorems. -/

/-- C1: every pixel of the `make_sky_filter` output is the original pixel
when its HSV triple satisfies all five strict threshold predicates
(H ∈ (0.45,0.75), S ∈ (0.20,0.90), V > 0.25, ANDed), and (0,0,0)
otherwise. -/
theorem make_sky_filter_pixel_spec (I : Image) (_hI : ValidImage I)
    (i j : Nat) (p : Pixel) (hp : pixAt I i j = some p) :
    pixAt (make_sky_filter I) i j =
      some (if SkyPred p then p else (⟨0, 0, 0⟩ : Pixel)) := by
  rw [make_sky_filter, pixAt_map, hp, Option.map_some', skyFilterPixel_eq]

theorem make_sky_filter_pixel_spec_witness :
    ValidImage [[(⟨0, 0, 0⟩ : Pixel)]] ∧
      pixAt (make_sky_filter [[(⟨0, 0, 0⟩ : Pixel)]]) 0 0 =
        some (if SkyPred (⟨0, 0, 0⟩ : Pixel) then (⟨0, 0, 0⟩ : Pixel)
          else (⟨0, 0, 0⟩ : Pixel)) :=
  ⟨by decide, make_sky_filter_pixel_spec [[⟨0, 0, 0⟩]] (by decide) 0 0 ⟨0, 0, 0⟩ rfl⟩

/-- C2: `filter_image` rewrites to white exactly the pixels whose
sky-filtered value is not (0,0,0), leaving the others as the original; in
particular every sky-classified pixel with at least one non-zero channel is
rewritten to (255,255,255). -/
theorem filter_image_whitens (I : Image) (_hI : ValidImage I)
    (i j : Nat) (p : Pixel) (hp : pixAt I i j = some p) :
    pixAt (filter_image I) i j =
        some (if skyFilterPixel p = (⟨0, 0, 0⟩ : Pixel) then p else whitePixel) ∧
      (SkyPred p → (p.r ≠ 0 ∨ p.g ≠ 0 ∨ p.b ≠ 0) →
        pixAt (filter_image I) i j = some whitePixel) := by
  rw [filter_image_eq_map, pixAt_map, hp, Option.map_some']
  constructor
  · rw [whitenPixel_eq, skyFilterPixel_eq]
    by_cases hs : SkyPred p
    · obtain ⟨hr, _, _⟩ := skyPred_pos hs
      have hne : p ≠ (⟨0, 0, 0⟩ : Pixel) := by
        intro h0
        rw [h0] at hr
        exact absurd hr (by decide)
      rw [if_pos hs, if_pos hs, if_neg hne]
    · rw [if_neg hs, if_neg hs, if_pos rfl]
  · intro hs _
    rw [whitenPixel_eq, if_pos hs]

theorem filter_image_whitens_witness :
    ValidImage [[(⟨100, 150, 200⟩ : Pixel)]] ∧
      (pixAt (filter_image [[(⟨100, 150, 200⟩ : Pixel)]]) 0 0 =
          some (if skyFilterPixel (⟨100, 150, 200⟩ : Pixel) = (⟨0, 0, 0⟩ : Pixel)
            then (⟨100, 150, 200⟩ : Pixel) else whitePixel) ∧
        (SkyPred (⟨100, 150, 200⟩ : Pixel) →
          ((⟨100, 150, 200⟩ : Pixel).r ≠ 0 ∨ (⟨100, 150, 200⟩ : Pixel).g ≠ 0 ∨
            (⟨100, 150, 200⟩ : Pixel).b ≠ 0) →
          pixAt (filter_image [[(⟨100, 150, 200⟩ : Pixel)]]) 0 0 = some whitePixel)) :=
  ⟨by decide, filter_image_whitens [[⟨100, 150, 200⟩]] (by decide) 0 0 ⟨100, 150, 200⟩ rfl⟩

/-- C3: `filter_image` never alters a pixel that is not classified as sky. -/
theorem filter_image_frame (I : Image) (_hI : ValidImage I)
    (i j : Nat) (p : Pixel) (hp : pixAt I i j = some p) (hns : ¬ SkyPred p) :
    pixAt (filter_image I) i j = some p := by
  rw [filter_image_eq_map, pixAt_map, hp, Option.map_some', whitenPixel_eq, if_neg hns]

theorem filter_image_frame_witness :
    ValidImage [[(⟨0, 0, 0⟩ : Pixel)]] ∧ ¬ SkyPred (⟨0, 0, 0⟩ : Pixel) ∧
      pixAt (filter_image [[(⟨0, 0, 0⟩ : Pixel)]]) 0 0 = some (⟨0, 0, 0⟩ : Pixel) :=
  ⟨by decide, not_skyPred_black,
    filter_image_frame [[⟨0, 0, 0⟩]] (by decide) 0 0 ⟨0, 0, 0⟩ rfl not_skyPred_black⟩

/-- C4: in the buffer model, `filter_image` leaves the input buffer
untouched, returns a freshly allocated buffer distinct from the input
address, and that buffer holds the composited image. -/
theorem filter_image_no_input_mutation (h : List Image) (a : Nat) (img : Image)
    (ha : h[a]? = some img) :
    ((runFilterImageHeap h a).1)[a]? = some img ∧
      (runFilterImageHeap h a).2 ≠ a ∧
      ((runFilterImageHeap h a).1)[(runFilterImageHeap h a).2]? =
        some (filter_image img) := by
  have hlt : a < h.length := by
    rcases List.getElem?_eq_some.mp ha with ⟨hl, _⟩
    exact hl
  simp only [runFilterImageHeap, ha]
  refine ⟨?_, by omega, ?_⟩
  · rw [List.getElem?_set_ne (by omega), List.getElem?_append_left hlt]
    exact ha
  · exact List.getElem?_set_eq_of_lt _ (by simp)

theorem filter_image_no_input_mutation_witness :
    ([[[(⟨0, 0, 0⟩ : Pixel)]]] : List Image)[0]? = some [[(⟨0, 0, 0⟩ : Pixel)]] ∧
      (((runFilterImageHeap [[[(⟨0, 0, 0⟩ : Pixel)]]] 0).1)[0]? =
          some [[(⟨0, 0, 0⟩ : Pixel)]] ∧
        (runFilterImageHeap [[[(⟨0, 0, 0⟩ : Pixel)]]] 0).2 ≠ 0 ∧
        ((runFilterImageHeap [[[(⟨0, 0, 0⟩ : Pixel)]]] 0).1)[
            (runFilterImageHeap [[[(⟨0, 0, 0⟩ : Pixel)]]] 0).2]? =
          some (filter_image [[(⟨0, 0, 0⟩ : Pixel)]])) :=
  ⟨rfl, filter_image_no_input_mutation [[[⟨0, 0, 0⟩]]] 0 [[⟨0, 0, 0⟩]] rfl⟩

/-- C5: both operations preserve the number of rows and every row length
(and the channel count is structural: each cell is one 3-channel pixel). -/
theorem shapes_preserved (I : Image) :
    (make_sky_filter I).length = I.length ∧ (filter_image I).length = I.length ∧
      ∀ i : Nat,
        ((make_sky_filter I)[i]?).map List.length = (I[i]?).map List.length ∧
          ((filter_image I)[i]?).map List.length = (I[i]?).map List.length := by
  rw [filter_image_eq_map, make_sky_filter]
  refine ⟨List.length_map _ _, List.length_map _ _, fun i => ⟨?_, ?_⟩⟩
  all_goals
    rw [List.getElem?_map]
    cases I[i]? with
    | none => rfl
    | some row => simp

/-- C6: a black pixel has value 0, which fails the strict value predicate,
so an all-black image classifies to an all-black output. -/
theorem make_sky_filter_all_black (I : Image)
    (hb : ∀ row ∈ I, ∀ p ∈ row, p = (⟨0, 0, 0⟩ : Pixel)) :
    valOf (⟨0, 0, 0⟩ : Pixel) = 0 ∧ ¬ SkyPred (⟨0, 0, 0⟩ : Pixel) ∧
      ∀ row ∈ make_sky_filter I, ∀ p ∈ row, p = (⟨0, 0, 0⟩ : Pixel) := by
  refine ⟨valOf_black, not_skyPred_black, ?_⟩
  intro row hrow p hp
  rw [make_sky_filter] at hrow
  rcases List.mem_map.mp hrow with ⟨row0, hrow0, hmap⟩
  rcases List.mem_map.mp (hmap ▸ hp) with ⟨q, hq, hfq⟩
  rw [← hfq, hb row0 hrow0 q hq, skyFilterPixel_eq, if_neg not_skyPred_black]

theorem make_sky_filter_all_black_witness :
    (∀ row ∈ ([[(⟨0, 0, 0⟩ : Pixel)]] : Image), ∀ p ∈ row, p = (⟨0, 0, 0⟩ : Pixel)) ∧
      (valOf (⟨0, 0, 0⟩ : Pixel) = 0 ∧ ¬ SkyPred (⟨0, 0, 0⟩ : Pixel) ∧
        ∀ row ∈ make_sky_filter [[(⟨0, 0, 0⟩ : Pixel)]], ∀ p ∈ row,
          p = (⟨0, 0, 0⟩ : Pixel)) :=
  ⟨by decide, make_sky_filter_all_black [[⟨0, 0, 0⟩]] (by decide)⟩

/-- C7: `filter_image` is idempotent on images with no true-black
sky-classified pixels (whitened pixels have saturation 0 and are non-sky on
the second pass; untouched pixels stay non-sky). -/
theorem filter_image_idempotent (I : Image)
    (_hnb : ∀ row ∈ I, ∀ p ∈ row, ¬ (SkyPred p ∧ p = (⟨0, 0, 0⟩ : Pixel))) :
    filter_image (filter_image I) = filter_image I := by
  rw [filter_image_eq_map (filter_image I), filter_image_eq_map I, List.map_map]
  refine List.map_congr_left fun row _ => ?_
  rw [Function.comp_apply, List.map_map]
  exact List.map_congr_left fun p _ => whitenPixel_idem p

theorem filter_image_idempotent_witness :
    (∀ row ∈ ([[(⟨0, 0, 0⟩ : Pixel)]] : Image), ∀ p ∈ row,
        ¬ (SkyPred p ∧ p = (⟨0, 0, 0⟩ : Pixel))) ∧
      filter_image (filter_image [[(⟨0, 0, 0⟩ : Pixel)]]) =
        filter_image [[(⟨0, 0, 0⟩ : Pixel)]] := by
  have hnb : ∀ row ∈ ([[(⟨0, 0, 0⟩ : Pixel)]] : Image), ∀ p ∈ row,
      ¬ (SkyPred p ∧ p = (⟨0, 0, 0⟩ : Pixel)) := by
    intro row hrow p hp hc
    exact not_skyPred_black (hc.2 ▸ hc.1)
  exact ⟨hnb, filter_image_idempotent [[⟨0, 0, 0⟩]] hnb⟩

/-- C8: a true-black input pixel comes out of `filter_image` black, whether
or not its HSV triple satisfies the predicates, because its sky-filtered
value is (0,0,0) and the detection signal requires non-zero channels. -/
theorem filter_image_black_fixed (I : Image) (_hI : ValidImage I)
    (i j : Nat) (hp : pixAt I i j = some (⟨0, 0, 0⟩ : Pixel)) :
    pixAt (filter_image I) i j = some (⟨0, 0, 0⟩ : Pixel) := by
  rw [filter_image_eq_map, pixAt_map, hp, Option.map_some']
  have hsf : (skyFilterPixel (⟨0, 0, 0⟩ : Pixel)).r = 0 := by
    simp [skyFilterPixel, maskPixel]
  rw [whitenPixel, compositePixel, if_neg (by simp [hsf])]

theorem filter_image_black_fixed_witness :
    ValidImage [[(⟨0, 0, 0⟩ : Pixel)]] ∧
      pixAt [[(⟨0, 0, 0⟩ : Pixel)]] 0 0 = some (⟨0, 0, 0⟩ : Pixel) ∧
      pixAt (filter_image [[(⟨0, 0, 0⟩ : Pixel)]]) 0 0 = some (⟨0, 0, 0⟩ : Pixel) :=
  ⟨by decide, rfl, filter_image_black_fixed [[⟨0, 0, 0⟩]] (by decide) 0 0 rfl⟩

/-- C9: both operations are deterministic total functions of the image:
equal inputs give equal outputs. -/
theorem core_deterministic (I J : Image) (hIJ : I = J) :
    make_sky_filter I = make_sky_filter J ∧ filter_image I = filter_image J := by
  subst hIJ
  exact ⟨rfl, rfl⟩

theorem core_deterministic_witness :
    ([[(⟨0, 0, 0⟩ : Pixel)]] : Image) = [[(⟨0, 0, 0⟩ : Pixel)]] ∧
      (make_sky_filter [[(⟨0, 0, 0⟩ : Pixel)]] =
          make_sky_filter [[(⟨0, 0, 0⟩ : Pixel)]] ∧
        filter_image [[(⟨0, 0, 0⟩ : Pixel)]] = filter_image [[(⟨0, 0, 0⟩ : Pixel)]]) :=
  ⟨rfl, core_deterministic [[⟨0, 0, 0⟩]] [[⟨0, 0, 0⟩]] rfl⟩

/-- C10: a pixel with any zero channel is never whitened: its sky-filtered
value has that channel zero, and the detection signal requires all three
channels non-zero.  (This subsumes the claim's case of a sky-classified
pixel with a zero channel — such pixels in fact cannot exist, by
`skyPred_pos`.) -/
theorem filter_image_zero_channel_unchanged (I : Image) (_hI : ValidImage I)
    (i j : Nat) (p : Pixel) (hp : pixAt I i j = some p)
    (hz : p.r = 0 ∨ p.g = 0 ∨ p.b = 0) :
    pixAt (filter_image I) i j = some p := by
  rw [filter_image_eq_map, pixAt_map, hp, Option.map_some', whitenPixel,
    compositePixel]
  rcases hz with h0 | h0 | h0 <;>
    rw [if_neg (by simp [skyFilterPixel, maskPixel, h0])]

theorem filter_image_zero_channel_unchanged_witness :
    ValidImage [[(⟨0, 100, 200⟩ : Pixel)]] ∧
      ((⟨0, 100, 200⟩ : Pixel).r = 0 ∨ (⟨0, 100, 200⟩ : Pixel).g = 0 ∨
        (⟨0, 100, 200⟩ : Pixel).b = 0) ∧
      pixAt (filter_image [[(⟨0, 100, 200⟩ : Pixel)]]) 0 0 =
        some (⟨0, 100, 200⟩ : Pixel) :=
  ⟨by decide, Or.inl rfl,
    filter_image_zero_channel_unchanged [[⟨0, 100, 200⟩]] (by decide) 0 0
      ⟨0, 100, 200⟩ rfl (Or.inl rfl)⟩
